import Mathlib

/-!
# Verification of the pythx API handler (`pythx/api/handler.py`)

Shallow embedding of the request/response pipeline implemented by
`APIHandler` and the module-level helpers `print_request` / `print_response`.

Dictionaries (`dict` with string keys and values) are embedded as
insertion-ordered association lists; `dict.update` keeps the position of an
existing key and appends new keys, matching CPython semantics.

The external collaborators are embedded as follows:

* `urllib.parse.urljoin` (standard library): modelled faithfully after the
  CPython implementation, restricted to base URLs of the shape
  `scheme://netloc/path` and to reference URLs that are plain paths or
  protocol-relative references (no query string, no parameters, no fragment):
  those are the only shapes the pipeline produces.
* `requests.request`: the transport is a parameter, a function from the
  prepared request to the received response.  `requests` guarantees that
  `response.request` is the prepared request that was sent, so the model
  applies the diagnostic trace to the prepared request it built.  A prepared
  request carries `body = None` exactly when `json=None` was passed, i.e.
  when the descriptor's payload is absent; otherwise the body is the
  serialized JSON bytes.  `response.text` and `response.content.decode()`
  are both the decoded body string.
* the configuration module and the middleware base class are not part of the
  handler source; they are modelled from the spec where needed (see the
  individual doc comments).
-/

deriving instance DecidableEq for Except

/-- String-keyed, string-valued Python dictionary, as an insertion-ordered
association list with (by construction) unique keys. -/
abbrev Headers := List (String × String)

/-- `d[k] = v` for a Python dict: an existing key keeps its position and gets
the new value, a fresh key is appended at the end. -/
def setKey : Headers → String → String → Headers
  | [], k, v => [(k, v)]
  | (k', v') :: rest, k, v =>
    if k' = k then (k, v) :: rest else (k', v') :: setKey rest k v

/-- `d.update(e)` for Python dicts: assign every entry of `e` into `d`,
in order. -/
def dictUpdate (d e : Headers) : Headers :=
  e.foldl (fun acc kv => setKey acc kv.1 kv.2) d

/-- `d.get(k)` for Python dicts: the value stored at the first (and, for a
real dict, only) entry with key `k`. -/
def getKey : Headers → String → Option String
  | [], _ => none
  | (k', v') :: rest, k => if k' = k then some v' else getKey rest k

/-! ## Model of `urllib.parse.urljoin`

The CPython algorithm, on the restricted domain described at the top of the
file: split the base at the first `://` into scheme and the rest, split the
rest at `/` into netloc and base path segments, then either take the
reference's own segments (absolute path), substitute the new authority
(protocol-relative reference), or merge the reference's segments onto the
base directory, and finally resolve `.` and `..` segments exactly as the
CPython loop does. -/

/-- Split a character list at the first occurrence of `://`, returning the
part before and the part after it. -/
def splitScheme : List Char → Option (List Char × List Char)
  | [] => none
  | c :: rest =>
    if c = ':' ∧ rest.head? = some '/' ∧ (rest.drop 1).head? = some '/' then
      some ([], rest.drop 2)
    else
      match splitScheme rest with
      | some (a, b) => some (c :: a, b)
      | none => none

/-- Characters allowed in a URL scheme (`urllib.parse.scheme_chars`). -/
def schemeChar (c : Char) : Bool :=
  c.isAlphanum || c = '+' || c = '-' || c = '.'

/-- Whether a reference URL carries its own scheme, in which case `urljoin`
returns it unchanged (CPython: `scheme != bscheme → return url` for foreign
schemes, and same-scheme absolute references keep their own authority). -/
def looksLikeScheme (l : List Char) : Bool :=
  match splitScheme l with
  | some (p, _) => !p.isEmpty && p.all schemeChar
  | none => false

/-- Python `str.split(sep)` for a one-character separator: split at every
occurrence, keeping empty pieces (`"".split('/') == [""]`). -/
def splitAll (sep : Char) : List Char → List (List Char)
  | [] => [[]]
  | c :: cs =>
    if c = sep then [] :: splitAll sep cs
    else
      match splitAll sep cs with
      | [] => [[c]]
      | g :: gs => (c :: g) :: gs

/-- Python `sep.join(pieces)` for a one-character separator. -/
def joinSegs (sep : Char) : List (List Char) → List Char
  | [] => []
  | [x] => x
  | x :: y :: rest => x ++ sep :: joinSegs sep (y :: rest)

/-- CPython's `segments[1:-1] = filter(None, segments[1:-1])`: drop empty
segments strictly between the first and the last one. -/
def filterMiddle : List (List Char) → List (List Char)
  | [] => []
  | [a] => [a]
  | a :: b :: rest =>
    a :: ((b :: rest).dropLast.filter (fun s => s ≠ []) ++ (b :: rest).getLast?.toList)

/-- The accumulator loop of CPython's `urljoin`: push ordinary segments,
pop on `..` (ignoring pops of an empty stack), skip `.`. -/
def resolveSegs : List (List Char) → List (List Char) → List (List Char)
  | acc, [] => acc.reverse
  | acc, seg :: rest =>
    if seg = ['.', '.'] then resolveSegs acc.tail rest
    else if seg = ['.'] then resolveSegs acc rest
    else resolveSegs (seg :: acc) rest

/-- Resolve `.` and `..` in a segment list, with CPython's trailing quirk:
if the last segment was a dot segment, a trailing empty segment is added so
the resulting path ends in `/`. -/
def dotResolve (segs : List (List Char)) : List (List Char) :=
  let r := resolveSegs [] segs
  match segs.getLast? with
  | some s => if s = ['.', '.'] ∨ s = ['.'] then r ++ [[]] else r
  | none => r

/-- CPython's `if base_parts[-1] != '': del base_parts[-1]` applied to the
segments of the base path (whose split always starts with an empty piece):
keep the base directory, dropping the last path segment unless the base path
ends in `/`. -/
def baseDirParts (bsegs : List (List Char)) : List (List Char) :=
  let baseParts0 : List (List Char) := [] :: bsegs
  if baseParts0.getLast? = some [] then baseParts0 else baseParts0.dropLast

/-- Whether the reference URL is protocol-relative (starts with `//`),
i.e. carries its own authority. -/
def urlHasNetloc (url : List Char) : Bool :=
  match url with
  | c1 :: c2 :: _ => c1 = '/' && c2 = '/'
  | _ => false

/-- Segment merging and dot resolution of CPython's `urljoin`: an absolute
reference path keeps only its own segments, a relative one is merged onto
the base directory with interior empty segments dropped; dot segments are
then resolved and the pieces joined back (an empty result path becomes `/`). -/
def resolveUrlPath (baseParts : List (List Char)) (url : List Char) : List Char :=
  let segments :=
    if url.head? = some '/' then splitAll '/' url
    else filterMiddle (baseParts ++ splitAll '/' url)
  let resolved := dotResolve segments
  let rpath := joinSegs '/' resolved
  if rpath = [] then ['/'] else rpath

/-- `urllib.parse.urljoin` on character lists (restricted domain, see the
module doc comment).  The final assembly follows CPython's `urlunsplit`,
which prepends `/` to a rootless path when an authority is present. -/
def urljoinCore (base url : List Char) : List Char :=
  if base = [] then url
  else if url = [] then base
  else if looksLikeScheme url then url
  else
    match splitScheme base with
    | none => url
    | some (bscheme, brest) =>
      match splitAll '/' brest with
      | [] => url
      | bnetloc :: bsegs =>
        if urlHasNetloc url then bscheme ++ ':' :: url
        else
          let rpath := resolveUrlPath (baseDirParts bsegs) url
          bscheme ++ ':' :: '/' :: '/' ::
            (bnetloc ++ (if rpath.head? = some '/' then rpath else '/' :: rpath))

/-- `urllib.parse.urljoin` as used by `APIHandler.assemble_request`. -/
def urljoin (base url : String) : String :=
  ⟨urljoinCore base.data url.data⟩

/-! ## Transport executor (`APIHandler.send_request` and the trace helpers) -/

/-- The body slot of a prepared `requests` request: absent (`None`), raw
bytes, or a text string.  The decoded content of a byte body is kept as the
`String` it decodes to. -/
inductive PyBody
  | bytes (s : String)
  | str (s : String)
deriving DecidableEq

/-- A Python-level fault raised by running a statement of the handler (as
opposed to an exception the handler raises deliberately). -/
inductive PyFault
  | attributeError
deriving DecidableEq

/-- The prepared HTTP request handed to the transport (`requests`' prepared
request): upper-cased method, url, merged headers and the serialized body. -/
structure PreparedRequest where
  method : String
  url : String
  headers : Headers
  body : Option PyBody
deriving DecidableEq

/-- The transport-level response: status code, decoded body text
(`response.text` and `response.content.decode()` are both this string) and
response headers. -/
structure HTTPResponse where
  status_code : Nat
  body : String
  headers : Headers
deriving DecidableEq

/-- A fault surfacing out of `APIHandler.send_request`: either the
deliberately raised `PythXAPIError` or a Python-level fault from one of its
statements. -/
inductive SendError
  | pythXAPIError (message : String)
  | pyFault (e : PyFault)
deriving DecidableEq

/-- Python `"\n".join(pieces)`. -/
def joinLines : List String → String
  | [] => ""
  | [x] => x
  | x :: y :: rest => x ++ "\n" ++ joinLines (y :: rest)

/-- The header lines of the diagnostic trace:
`"\n".join("{}: {}".format(k, v) for k, v in headers.items())`. -/
def headerLines (hs : Headers) : String :=
  joinLines (hs.map (fun kv => kv.1 ++ ": " ++ kv.2))

/-- `print_request` (module level): pretty-print a prepared request.  The
source evaluates `req.body.decode()` unconditionally; when the body is
absent (`None`) or already a text string, that attribute access raises
`AttributeError`, which this model returns as an error value. -/
def print_request (req : PreparedRequest) : Except PyFault String :=
  match req.body with
  | none => Except.error PyFault.attributeError
  | some (PyBody.str _) => Except.error PyFault.attributeError
  | some (PyBody.bytes b) =>
    Except.ok ("\nHTTP/1.1 " ++ req.method ++ " " ++ req.url ++ "\n"
      ++ headerLines req.headers ++ "\n\n" ++ b ++ "\n")

/-- `print_response` (module level): pretty-print a received response.
`res.content` is always a byte string, so `res.content.decode()` never hits
a missing attribute and this function is total. -/
def print_response (res : HTTPResponse) : String :=
  "\nHTTP/1.1 " ++ Nat.repr res.status_code ++ "\n"
    ++ headerLines res.headers ++ "\n\n" ++ res.body ++ "\n"

/-- Python `str.upper()` (the handler only upper-cases HTTP verbs, which are
ASCII). -/
def pyUpper (s : String) : String :=
  ⟨s.data.map Char.toUpper⟩

/-- The request descriptor (`request_data`): the dictionary built by
`APIHandler.assemble_request` and consumed by `APIHandler.send_request`.
The payload is the (already JSON-serialized) request body, or `none` for a
Python `None` payload. -/
structure RequestData where
  method : String
  payload : Option String
  params : Headers
  headers : Headers
  url : String
deriving DecidableEq

/-- The first half of `APIHandler.send_request`, up to the `requests.request`
call: default the auth header to `{}`, upper-case the method, merge the auth
header into the descriptor's headers (`headers.update(auth_header)`), and
prepare the body from the payload (`json=payload`: a `None` payload produces
no body, any other payload is serialized to bytes). -/
def prepared_request (request_data : RequestData) (auth_header : Option Headers) : PreparedRequest :=
  { method := pyUpper request_data.method
  , url := request_data.url
  , headers := dictUpdate request_data.headers (auth_header.getD [])
  , body := request_data.payload.map PyBody.bytes }

/-- `APIHandler.send_request` (static method).  The transport
(`requests.request`) is a parameter from prepared requests to responses.
After the network call the source evaluates `print_request(response.request)`
— whose fault, if any, propagates — then checks the status code: any status
other than `200` raises `PythXAPIError` with the status code and decoded
body in its message, and a `200` status returns `response.text`.

`headers.update(auth_header)` mutates the dictionary stored under
`"headers"` in `request_data` in place; the second component of the result
is that dictionary's contents after the call.  `assemble_request` stores the
domain request's own headers dictionary there without copying, so this is
also the caller's dictionary. -/
def send_request (transport : PreparedRequest → HTTPResponse)
    (request_data : RequestData) (auth_header : Option Headers) :
    Except SendError String × Headers :=
  let prepared := prepared_request request_data auth_header
  let response := transport prepared
  let result : Except SendError String :=
    match print_request prepared with
    | Except.error e => Except.error (SendError.pyFault e)
    | Except.ok _ =>
      if response.status_code ≠ 200 then
        Except.error (SendError.pythXAPIError
          ("Got unexpected status code " ++ Nat.repr response.status_code ++ ": "
            ++ response.body))
      else Except.ok response.body
  (result, prepared.headers)

/-! ## Middleware chain and the handler -/

/-- A registered middleware (`pythx.middleware.base.BaseMiddleware` is not
part of the handler source; per the spec a middleware exposes a
request-transform and a response-transform, each of which either returns a
value or faults).  `ε` is the type of middleware faults, `ρ` the domain
response model type. -/
structure Middleware (ε ρ : Type) where
  process_request : RequestData → Except ε RequestData
  process_response : ρ → Except ε ρ

/-- A middleware built from two total functions (one that never faults). -/
def Middleware.ofFuns {ε ρ : Type} (f : RequestData → RequestData) (g : ρ → ρ) :
    Middleware ε ρ :=
  ⟨fun r => Except.ok (f r), fun m => Except.ok (g m)⟩

/-- The `APIHandler` object: the registered middleware list and the
environment selector (`"staging"` or `"production"`). -/
structure APIHandler (ε ρ : Type) where
  middlewares : List (Middleware ε ρ)
  mode : String

/-- `APIHandler.__init__`: a `None` middleware list becomes the empty list,
and `staging` selects the mode string. -/
def APIHandler.init {ε ρ : Type} (middlewares : Option (List (Middleware ε ρ)))
    (staging : Bool) : APIHandler ε ρ :=
  ⟨middlewares.getD [], if staging then "staging" else "production"⟩

/-- The loop of `execute_request_middlewares`: run each middleware's
`process_request` on the running descriptor; a fault aborts the loop. -/
def runRequestChain {ε ρ : Type} : List (Middleware ε ρ) → RequestData → Except ε RequestData
  | [], r => Except.ok r
  | mw :: rest, r =>
    match mw.process_request r with
    | Except.error e => Except.error e
    | Except.ok r2 => runRequestChain rest r2

/-- The loop of `execute_response_middlewares`: run each middleware's
`process_response` on the running model; a fault aborts the loop. -/
def runResponseChain {ε ρ : Type} : List (Middleware ε ρ) → ρ → Except ε ρ
  | [], m => Except.ok m
  | mw :: rest, m =>
    match mw.process_response m with
    | Except.error e => Except.error e
    | Except.ok m2 => runResponseChain rest m2

/-- `APIHandler.execute_request_middlewares`. -/
def execute_request_middlewares {ε ρ : Type} (h : APIHandler ε ρ) (req : RequestData) :
    Except ε RequestData :=
  runRequestChain h.middlewares req

/-- `APIHandler.execute_response_middlewares`. -/
def execute_response_middlewares {ε ρ : Type} (h : APIHandler ε ρ) (resp : ρ) :
    Except ε ρ :=
  runResponseChain h.middlewares resp

/-- `APIHandler.parse_response`: construct the domain model via the model
class's own `from_json` (the model classes are collaborators, so the
construction rule is a parameter; a construction fault is not caught), then
run the response middleware chain on the result. -/
def parse_response {ε ρ : Type} (h : APIHandler ε ρ) (model : String → Except ε ρ)
    (resp : String) : Except ε ρ :=
  match model resp with
  | Except.error e => Except.error e
  | Except.ok m => execute_response_middlewares h m

/-- A domain request object: the capability set `{endpoint, method, payload,
parameters, headers}` read by `assemble_request`. -/
structure DomainRequest where
  endpoint : String
  method : String
  payload : Option String
  parameters : Headers
  headers : Headers
deriving DecidableEq

/-- Modelled from the spec: the configuration module (`pythx.config`, not
part of the handler source) maps the environment name to the API base URL —
`"production"` to the MythX API endpoint and `"staging"` to the staging
deployment endpoint. -/
def config_endpoints (mode : String) : String :=
  if mode = "staging" then "https://staging.api.mythx.io" else "https://api.mythx.io"

/-- `APIHandler.assemble_request`: join the configured base endpoint for the
active environment with the domain request's path, populate the descriptor
dictionary from the domain request's fields, and run the request middleware
chain over it. -/
def assemble_request {ε ρ : Type} (h : APIHandler ε ρ) (req : DomainRequest) :
    Except ε RequestData :=
  let url := urljoin (config_endpoints h.mode) req.endpoint
  execute_request_middlewares h
    { method := req.method
    , payload := req.payload
    , params := req.parameters
    , headers := req.headers
    , url := url }
/-! ## Properties of the URL-join model -/

theorem splitAll_ne_nil (sep : Char) (l : List Char) : splitAll sep l ≠ [] := by
  induction l with
  | nil => simp [splitAll]
  | cons c cs ih =>
    rw [splitAll]
    by_cases h : c = sep
    · simp [h]
    · simp only [if_neg h]
      cases hs : splitAll sep cs with
      | nil => simp
      | cons g gs => simp

theorem splitAll_of_not_mem (sep : Char) (l : List Char) (h : sep ∉ l) :
    splitAll sep l = [l] := by
  induction l with
  | nil => rfl
  | cons c cs ih =>
    simp only [List.mem_cons, not_or] at h
    rw [splitAll, if_neg (fun hc => h.1 hc.symm), ih h.2]

theorem splitAll_append_cons (sep : Char) (l1 l2 : List Char) (h : sep ∉ l1) :
    splitAll sep (l1 ++ sep :: l2) = l1 :: splitAll sep l2 := by
  induction l1 with
  | nil => simp [splitAll]
  | cons c t ih =>
    simp only [List.mem_cons, not_or] at h
    rw [List.cons_append, splitAll, if_neg (fun hc => h.1 hc.symm), ih h.2]

theorem joinSegs_splitAll (sep : Char) (l : List Char) :
    joinSegs sep (splitAll sep l) = l := by
  induction l with
  | nil => rfl
  | cons c cs ih =>
    rw [splitAll]
    by_cases h : c = sep
    · rw [if_pos h]
      cases hs : splitAll sep cs with
      | nil => exact absurd hs (splitAll_ne_nil sep cs)
      | cons g gs =>
        rw [hs] at ih
        rw [joinSegs, ih, h]
        rfl
    · rw [if_neg h]
      cases hs : splitAll sep cs with
      | nil => exact absurd hs (splitAll_ne_nil sep cs)
      | cons g gs =>
        rw [hs] at ih
        cases gs with
        | nil =>
          rw [joinSegs] at ih ⊢
          rw [ih]
        | cons g2 gs2 =>
          rw [joinSegs] at ih ⊢
          rw [List.cons_append, ih]

theorem resolveSegs_no_dots (segs : List (List Char)) (acc : List (List Char))
    (h : ∀ s ∈ segs, s ≠ ['.'] ∧ s ≠ ['.', '.']) :
    resolveSegs acc segs = acc.reverse ++ segs := by
  induction segs generalizing acc with
  | nil => simp [resolveSegs]
  | cons seg rest ih =>
    have hseg := h seg (List.mem_cons_self seg rest)
    rw [resolveSegs, if_neg hseg.2, if_neg hseg.1,
      ih (seg :: acc) (fun s hs => h s (List.mem_cons_of_mem seg hs))]
    simp

theorem dotResolve_no_dots (segs : List (List Char))
    (h : ∀ s ∈ segs, s ≠ ['.'] ∧ s ≠ ['.', '.']) :
    dotResolve segs = segs := by
  rw [dotResolve]
  cases hl : segs.getLast? with
  | none => simp [resolveSegs_no_dots segs [] h]
  | some s =>
    have hmem : s ∈ segs := by
      have heq : segs.dropLast ++ [s] = segs := List.dropLast_append_getLast? s hl
      rw [← heq]
      simp
    have hs := h s hmem
    simp [resolveSegs_no_dots segs [] h, hs.1, hs.2]

theorem filterMiddle_cons_empty (segs : List (List Char)) (h0 : segs ≠ [])
    (h : ∀ s ∈ segs, s ≠ []) :
    filterMiddle ([] :: segs) = [] :: segs := by
  cases segs with
  | nil => exact absurd rfl h0
  | cons b rest =>
    rw [filterMiddle]
    have hfilter : (b :: rest).dropLast.filter (fun s => s ≠ []) = (b :: rest).dropLast := by
      rw [List.filter_eq_self]
      intro a ha
      have : a ∈ b :: rest := List.dropLast_subset _ ha
      simpa using h a this
    rw [hfilter]
    cases hlast : (b :: rest).getLast? with
    | none => simp at hlast
    | some a =>
      simp only [Option.toList_some]
      rw [List.dropLast_append_getLast? a hlast]

theorem splitScheme_append (l1 l2 : List Char) (h : '/' ∉ l1) :
    splitScheme (l1 ++ ':' :: '/' :: '/' :: l2) = some (l1, l2) := by
  induction l1 with
  | nil => simp [splitScheme]
  | cons c t ih =>
    simp only [List.mem_cons, not_or] at h
    rw [List.cons_append, splitScheme]
    have hcond : ¬(c = ':' ∧ (t ++ ':' :: '/' :: '/' :: l2).head? = some '/' ∧
        ((t ++ ':' :: '/' :: '/' :: l2).drop 1).head? = some '/') := by
      rintro ⟨-, h2, -⟩
      cases t with
      | nil => simp at h2
      | cons d t' =>
        simp only [List.cons_append, List.head?_cons, Option.some.injEq] at h2
        exact h.2 (by simp [h2])
    rw [if_neg hcond, ih (by simpa using h.2)]

theorem looksLikeScheme_head_slash (l : List Char) (h : l.head? = some '/') :
    looksLikeScheme l = false := by
  cases l with
  | nil => simp at h
  | cons c t =>
    simp only [List.head?_cons, Option.some.injEq] at h
    subst h
    rw [looksLikeScheme, splitScheme, if_neg (by rintro ⟨h1, -, -⟩; exact absurd h1 (by decide))]
    cases hs : splitScheme t with
    | none => rfl
    | some ab =>
      obtain ⟨a, b⟩ := ab
      simp [schemeChar]

theorem urlHasNetloc_cons_not_slash (t : List Char) (h : t.head? ≠ some '/') :
    urlHasNetloc ('/' :: t) = false := by
  cases t with
  | nil => rfl
  | cons c t' =>
    have h' : c ≠ '/' := fun hc => h (by simp [hc])
    simp [urlHasNetloc, h']

theorem urlHasNetloc_not_slash (l : List Char) (h : l.head? ≠ some '/') :
    urlHasNetloc l = false := by
  cases l with
  | nil => rfl
  | cons c t =>
    have h' : c ≠ '/' := fun hc => h (by simp [hc])
    cases t with
    | nil => rfl
    | cons c2 t' => simp [urlHasNetloc, h']

theorem urljoinCore_absolute (sd nd pd e : List Char)
    (hs : '/' ∉ sd) (hn : '/' ∉ nd) (hp : pd = [] ∨ pd.head? = some '/')
    (he : e.head? = some '/') (he2 : (e.drop 1).head? ≠ some '/')
    (hdot : ∀ seg ∈ splitAll '/' e, seg ≠ ['.'] ∧ seg ≠ ['.', '.']) :
    urljoinCore (sd ++ ':' :: '/' :: '/' :: (nd ++ pd)) e
      = sd ++ ':' :: '/' :: '/' :: (nd ++ e) := by
  obtain ⟨t, rfl⟩ : ∃ t, e = '/' :: t := by
    cases e with
    | nil => simp at he
    | cons c t =>
      simp only [List.head?_cons, Option.some.injEq] at he
      exact ⟨t, by rw [he]⟩
  have hbase_ne : sd ++ ':' :: '/' :: '/' :: (nd ++ pd) ≠ [] := by cases sd <;> simp
  have hls : looksLikeScheme ('/' :: t) = false := looksLikeScheme_head_slash _ rfl
  have hss : splitScheme (sd ++ ':' :: '/' :: '/' :: (nd ++ pd)) = some (sd, nd ++ pd) :=
    splitScheme_append sd (nd ++ pd) hs
  obtain ⟨bsegs, hsplit⟩ : ∃ bsegs, splitAll '/' (nd ++ pd) = nd :: bsegs := by
    rcases hp with rfl | hph
    · exact ⟨[], by rw [List.append_nil]; exact splitAll_of_not_mem '/' nd hn⟩
    · obtain ⟨pt, rfl⟩ : ∃ pt, pd = '/' :: pt := by
        cases pd with
        | nil => simp at hph
        | cons c pt =>
          simp only [List.head?_cons, Option.some.injEq] at hph
          exact ⟨pt, by rw [hph]⟩
      exact ⟨splitAll '/' pt, splitAll_append_cons '/' nd pt hn⟩
  have hnl : urlHasNetloc ('/' :: t) = false := by
    apply urlHasNetloc_cons_not_slash
    simpa using he2
  have hres : resolveUrlPath (baseDirParts bsegs) ('/' :: t) = '/' :: t := by
    have hd : dotResolve (splitAll '/' ('/' :: t)) = splitAll '/' ('/' :: t) :=
      dotResolve_no_dots _ hdot
    have hj : joinSegs '/' (splitAll '/' ('/' :: t)) = '/' :: t := joinSegs_splitAll '/' _
    simp [resolveUrlPath, hd, hj]
  simp only [urljoinCore, if_neg hbase_ne, hss, hsplit, hls, hnl, hres]
  simp

theorem urljoinCore_relative (sd nd e : List Char)
    (hs : '/' ∉ sd) (hn : '/' ∉ nd)
    (hls : looksLikeScheme e = false) (hne : e ≠ [])
    (hsegs : ∀ seg ∈ splitAll '/' e, seg ≠ [] ∧ seg ≠ ['.'] ∧ seg ≠ ['.', '.']) :
    urljoinCore (sd ++ ':' :: '/' :: '/' :: nd) e
      = sd ++ ':' :: '/' :: '/' :: (nd ++ '/' :: e) := by
  have hbase_ne : sd ++ ':' :: '/' :: '/' :: nd ≠ [] := by cases sd <;> simp
  have hss : splitScheme (sd ++ ':' :: '/' :: '/' :: nd) = some (sd, nd) :=
    splitScheme_append sd nd hs
  have hsplitb : splitAll '/' nd = [nd] := splitAll_of_not_mem '/' nd hn
  have he_head : e.head? ≠ some '/' := by
    cases e with
    | nil => simp
    | cons c tl =>
      intro hcc
      have hc : c = '/' := by simpa using hcc
      subst hc
      have : ([] : List Char) ∈ splitAll '/' ('/' :: tl) := by
        rw [splitAll, if_pos rfl]
        exact List.mem_cons_self _ _
      exact (hsegs [] this).1 rfl
  have hnl : urlHasNetloc e = false := urlHasNetloc_not_slash e he_head
  obtain ⟨g, gs, hsplit⟩ : ∃ g gs, splitAll '/' e = g :: gs := by
    cases hx : splitAll '/' e with
    | nil => exact absurd hx (splitAll_ne_nil '/' e)
    | cons g gs => exact ⟨g, gs, rfl⟩
  have hfm : filterMiddle ([] :: splitAll '/' e) = [] :: splitAll '/' e :=
    filterMiddle_cons_empty _ (splitAll_ne_nil '/' e) (fun s hs => (hsegs s hs).1)
  have hd : dotResolve ([] :: splitAll '/' e) = [] :: splitAll '/' e := by
    apply dotResolve_no_dots
    intro s hmem
    rcases List.mem_cons.mp hmem with rfl | hmem
    · exact ⟨by simp, by simp⟩
    · exact (hsegs s hmem).2
  have hj : joinSegs '/' ([] :: splitAll '/' e) = '/' :: e := by
    rw [hsplit, joinSegs]
    rw [← hsplit, joinSegs_splitAll]
    rfl
  have hres : resolveUrlPath (baseDirParts []) e = '/' :: e := by
    have hbd : baseDirParts [] = [[]] := by simp [baseDirParts]
    rw [hbd]
    have h1 : ([[]] : List (List Char)) ++ splitAll '/' e = [] :: splitAll '/' e := rfl
    simp only [resolveUrlPath, if_neg he_head, h1, hfm, hd, hj]
    simp
  simp only [urljoinCore, if_neg hbase_ne, if_neg hne, hss, hsplitb, hls, hnl, hres]
  simp

/-! ## Chain lemmas -/

theorem runRequestChain_append {ε ρ : Type} (xs ys : List (Middleware ε ρ)) (d : RequestData) :
    runRequestChain (xs ++ ys) d
      = (runRequestChain xs d).bind (fun d2 => runRequestChain ys d2) := by
  induction xs generalizing d with
  | nil => rfl
  | cons m ms ih =>
    rw [List.cons_append, runRequestChain]
    cases hm : m.process_request d with
    | error e => simp [runRequestChain, hm, Except.bind]
    | ok d2 => simp [runRequestChain, hm, Except.bind, ih]

theorem runResponseChain_append {ε ρ : Type} (xs ys : List (Middleware ε ρ)) (r : ρ) :
    runResponseChain (xs ++ ys) r
      = (runResponseChain xs r).bind (fun r2 => runResponseChain ys r2) := by
  induction xs generalizing r with
  | nil => rfl
  | cons m ms ih =>
    rw [List.cons_append, runResponseChain]
    cases hm : m.process_response r with
    | error e => simp [runResponseChain, hm, Except.bind]
    | ok r2 => simp [runResponseChain, hm, Except.bind, ih]

/-- Claim C3: on both stages the middleware chain threads its argument
through the registered middlewares from the first registered to the last:
the chain on `m :: ms` first applies `m` and continues with the chain on
`ms` (for requests via `process_request`, for responses via
`process_response`, both in the same forward registration order), and a
chain of pure transforms computes the plain left-to-right fold of the
transform functions in registration order. -/
theorem middleware_chain_fold_order :
    (∀ (ε ρ : Type) (mode : String) (m : Middleware ε ρ) (ms : List (Middleware ε ρ))
        (d : RequestData),
      execute_request_middlewares ⟨m :: ms, mode⟩ d
        = (m.process_request d).bind (fun d2 => execute_request_middlewares ⟨ms, mode⟩ d2))
  ∧ (∀ (ε ρ : Type) (mode : String) (m : Middleware ε ρ) (ms : List (Middleware ε ρ)) (r : ρ),
      execute_response_middlewares ⟨m :: ms, mode⟩ r
        = (m.process_response r).bind (fun r2 => execute_response_middlewares ⟨ms, mode⟩ r2))
  ∧ (∀ (ε ρ : Type) (mode : String) (fs : List ((RequestData → RequestData) × (ρ → ρ)))
        (d : RequestData) (r : ρ),
      execute_request_middlewares (⟨fs.map (fun p => Middleware.ofFuns p.1 p.2), mode⟩ : APIHandler ε ρ) d
        = Except.ok (fs.foldl (fun x p => p.1 x) d)
      ∧ execute_response_middlewares (⟨fs.map (fun p => Middleware.ofFuns p.1 p.2), mode⟩ : APIHandler ε ρ) r
        = Except.ok (fs.foldl (fun x p => p.2 x) r)) := by
  refine ⟨?_, ?_, ?_⟩
  · intro ε ρ mode m ms d
    rw [execute_request_middlewares, runRequestChain]
    cases m.process_request d with
    | error e => rfl
    | ok d2 => rfl
  · intro ε ρ mode m ms r
    rw [execute_response_middlewares, runResponseChain]
    cases m.process_response r with
    | error e => rfl
    | ok r2 => rfl
  · intro ε ρ mode fs d r
    induction fs generalizing d r with
    | nil => exact ⟨rfl, rfl⟩
    | cons p ps ih =>
      refine ⟨?_, ?_⟩
      · rw [List.map_cons, execute_request_middlewares, runRequestChain]
        exact (ih (p.1 d) r).1
      · rw [List.map_cons, execute_response_middlewares, runResponseChain]
        exact (ih d (p.2 r)).2

/-- Claim C6: if a middleware in either stage faults, the stage's result is
that very fault, whatever middlewares are registered after it (they are
never reached), and the faulting middleware receives exactly the value
produced by the middlewares before it (their transformations stand). -/
theorem middleware_chain_abort_on_fault :
    (∀ (ε ρ : Type) (mode : String) (ms1 ms2 : List (Middleware ε ρ)) (m : Middleware ε ρ)
        (d d1 : RequestData) (f : ε),
      execute_request_middlewares ⟨ms1, mode⟩ d = Except.ok d1 →
      m.process_request d1 = Except.error f →
      execute_request_middlewares ⟨ms1 ++ m :: ms2, mode⟩ d = Except.error f)
  ∧ (∀ (ε ρ : Type) (mode : String) (ms1 ms2 : List (Middleware ε ρ)) (m : Middleware ε ρ)
        (r r1 : ρ) (f : ε),
      execute_response_middlewares ⟨ms1, mode⟩ r = Except.ok r1 →
      m.process_response r1 = Except.error f →
      execute_response_middlewares ⟨ms1 ++ m :: ms2, mode⟩ r = Except.error f) := by
  constructor
  · intro ε ρ mode ms1 ms2 m d d1 f h1 h2
    rw [execute_request_middlewares] at h1 ⊢
    rw [runRequestChain_append, h1]
    simp [Except.bind, runRequestChain, h2]
  · intro ε ρ mode ms1 ms2 m r r1 f h1 h2
    rw [execute_response_middlewares] at h1 ⊢
    rw [runResponseChain_append, h1]
    simp [Except.bind, runResponseChain, h2]

/-- A concrete middleware that tags the descriptor's url and the model
(witness material). -/
def tagMiddleware : Middleware String String :=
  ⟨fun d => Except.ok { d with url := d.url ++ "+t" }, fun m => Except.ok (m ++ "+t")⟩

/-- A concrete middleware that always faults (witness material). -/
def faultMiddleware : Middleware String String :=
  ⟨fun _ => Except.error "middleware fault", fun _ => Except.error "middleware fault"⟩

theorem middleware_chain_abort_on_fault_witness :
    execute_request_middlewares (⟨[tagMiddleware, faultMiddleware, tagMiddleware], "production"⟩ : APIHandler String String)
        ⟨"GET", none, [], [], "u"⟩ = Except.error "middleware fault"
  ∧ execute_response_middlewares (⟨[tagMiddleware, faultMiddleware, tagMiddleware], "production"⟩ : APIHandler String String)
        "model" = Except.error "middleware fault" :=
  ⟨middleware_chain_abort_on_fault.1 String String "production" [tagMiddleware] [tagMiddleware]
      faultMiddleware ⟨"GET", none, [], [], "u"⟩ ⟨"GET", none, [], [], "u+t"⟩ "middleware fault" rfl rfl,
    middleware_chain_abort_on_fault.2 String String "production" [tagMiddleware] [tagMiddleware]
      faultMiddleware "model" "model+t" "middleware fault" rfl rfl⟩

/-- Claim C10: a handler constructed with `middlewares=None` has the empty
middleware chain, and with an empty chain both middleware stages return
their argument unchanged. -/
theorem empty_chain_identity :
    (∀ (ε ρ : Type) (staging : Bool), (@APIHandler.init ε ρ none staging).middlewares = [])
  ∧ (∀ (ε ρ : Type) (h : APIHandler ε ρ), h.middlewares = [] →
      (∀ d : RequestData, execute_request_middlewares h d = Except.ok d)
      ∧ (∀ r : ρ, execute_response_middlewares h r = Except.ok r)) := by
  refine ⟨fun ε ρ staging => rfl, fun ε ρ h hmw => ⟨fun d => ?_, fun r => ?_⟩⟩
  · rw [execute_request_middlewares, hmw, runRequestChain]
  · rw [execute_response_middlewares, hmw, runResponseChain]

theorem empty_chain_identity_witness :
    execute_request_middlewares (@APIHandler.init String String none true)
        ⟨"GET", none, [], [], "u"⟩ = Except.ok ⟨"GET", none, [], [], "u"⟩
  ∧ execute_response_middlewares (@APIHandler.init String String none true) "model"
      = Except.ok "model" :=
  ⟨(empty_chain_identity.2 String String (APIHandler.init none true) rfl).1 ⟨"GET", none, [], [], "u"⟩,
    (empty_chain_identity.2 String String (APIHandler.init none true) rfl).2 "model"⟩

/-- Claim C5: `parse_response` builds the domain model with the model
class's own construction rule and, when construction succeeds, returns the
response middleware stage applied to the constructed model; a construction
fault is returned unmodified, not caught. -/
theorem parse_response_decode_spec :
    (∀ (ε ρ : Type) (h : APIHandler ε ρ) (model : String → Except ε ρ) (resp : String) (f : ε),
      model resp = Except.error f → parse_response h model resp = Except.error f)
  ∧ (∀ (ε ρ : Type) (h : APIHandler ε ρ) (model : String → Except ε ρ) (resp : String) (m : ρ),
      model resp = Except.ok m →
      parse_response h model resp = execute_response_middlewares h m) := by
  constructor
  · intro ε ρ h model resp f hf
    rw [parse_response, hf]
  · intro ε ρ h model resp m hm
    rw [parse_response, hm]

theorem parse_response_decode_spec_witness :
    parse_response (⟨[], "production"⟩ : APIHandler String Nat)
        (fun s => if s = "ok" then Except.ok 7 else Except.error "DeserializationError") "bad"
      = Except.error "DeserializationError"
  ∧ parse_response (⟨[], "production"⟩ : APIHandler String Nat)
        (fun s => if s = "ok" then Except.ok 7 else Except.error "DeserializationError") "ok"
      = Except.ok 7 := by
  constructor
  · exact parse_response_decode_spec.1 String Nat ⟨[], "production"⟩
      (fun s => if s = "ok" then Except.ok 7 else Except.error "DeserializationError")
      "bad" "DeserializationError" (by decide)
  · exact (parse_response_decode_spec.2 String Nat ⟨[], "production"⟩
      (fun s => if s = "ok" then Except.ok 7 else Except.error "DeserializationError")
      "ok" 7 (by decide)).trans rfl

/-! ## Dictionary lemmas for the auth-header merge -/

theorem getKey_setKey_self (d : Headers) (k v : String) :
    getKey (setKey d k v) k = some v := by
  induction d with
  | nil => simp [setKey, getKey]
  | cons kv rest ih =>
    obtain ⟨k', v'⟩ := kv
    rw [setKey]
    by_cases h : k' = k
    · rw [if_pos h, getKey, if_pos rfl]
    · rw [if_neg h, getKey, if_neg h]
      exact ih

theorem getKey_setKey_ne (d : Headers) (k k2 v : String) (h : k ≠ k2) :
    getKey (setKey d k v) k2 = getKey d k2 := by
  induction d with
  | nil => simp [setKey, getKey, h]
  | cons kv rest ih =>
    obtain ⟨k', v'⟩ := kv
    rw [setKey]
    by_cases hk : k' = k
    · rw [if_pos hk, getKey, if_neg h, getKey, if_neg (hk ▸ h)]
    · rw [if_neg hk, getKey, getKey]
      by_cases hk2 : k' = k2
      · rw [if_pos hk2, if_pos hk2]
      · rw [if_neg hk2, if_neg hk2]
        exact ih

theorem getKey_eq_none (d : Headers) (k : String) (h : k ∉ d.map Prod.fst) :
    getKey d k = none := by
  induction d with
  | nil => rfl
  | cons kv rest ih =>
    obtain ⟨k', v'⟩ := kv
    simp only [List.map_cons, List.mem_cons, not_or] at h
    rw [getKey, if_neg (fun he => h.1 he.symm)]
    exact ih h.2

theorem getKey_dictUpdate (d e : Headers) (k : String)
    (h : (e.map Prod.fst).Nodup) :
    getKey (dictUpdate d e) k = (getKey e k).or (getKey d k) := by
  induction e generalizing d with
  | nil => rfl
  | cons kv rest ih =>
    obtain ⟨k1, v1⟩ := kv
    simp only [List.map_cons, List.nodup_cons] at h
    have hstep : dictUpdate d ((k1, v1) :: rest) = dictUpdate (setKey d k1 v1) rest := rfl
    rw [hstep, ih (setKey d k1 v1) h.2, getKey]
    by_cases hk : k1 = k
    · subst hk
      rw [if_pos rfl, getKey_eq_none rest k1 h.1, getKey_setKey_self d k1 v1]
      rfl
    · rw [if_neg hk]
      cases hr : getKey rest k with
      | some v => rfl
      | none => simp [Option.or, getKey_setKey_ne d k1 k v1 hk]

/-- Claim C4: `send_request` merges the auth header entries into the
descriptor's headers before the network call: the prepared request carries
`dictUpdate` of the descriptor's headers with the auth header, an absent or
empty auth header leaves the headers exactly as they were, an auth header
entry wins on every key it defines (the merged lookup is the auth lookup
first, falling back to the descriptor's headers), and the transport receives
the merged mapping. -/
theorem send_auth_header_merge :
    (∀ (rd : RequestData) (ah : Option Headers),
      (prepared_request rd ah).headers = dictUpdate rd.headers (ah.getD []))
  ∧ (∀ rd : RequestData,
      (prepared_request rd none).headers = rd.headers
      ∧ (prepared_request rd (some [])).headers = rd.headers)
  ∧ (∀ (rd : RequestData) (auth : Headers) (k : String),
      (auth.map Prod.fst).Nodup →
      getKey (prepared_request rd (some auth)).headers k
        = (getKey auth k).or (getKey rd.headers k))
  ∧ (∀ (rd : RequestData) (ah : Option Headers) (p k : String),
      rd.payload = some p →
      (send_request (fun pr => ⟨200, (getKey pr.headers k).getD "", []⟩) rd ah).1
        = Except.ok ((getKey (dictUpdate rd.headers (ah.getD [])) k).getD "")) := by
  refine ⟨fun rd ah => rfl, fun rd => ⟨rfl, rfl⟩, ?_, ?_⟩
  · intro rd auth k hnd
    exact getKey_dictUpdate rd.headers auth k hnd
  · intro rd ah p k hp
    simp [send_request, prepared_request, print_request, hp]

theorem send_auth_header_merge_witness :
    getKey (prepared_request
        ⟨"get", some "x", [], [("Authorization", "caller"), ("Accept", "app")], "u"⟩
        (some [("Authorization", "token")])).headers "Authorization" = some "token"
  ∧ (send_request (fun pr => ⟨200, (getKey pr.headers "Authorization").getD "", []⟩)
        ⟨"get", some "x", [], [("Authorization", "caller"), ("Accept", "app")], "u"⟩
        (some [("Authorization", "token")])).1 = Except.ok "token" := by
  constructor
  · exact (send_auth_header_merge.2.2.1
      ⟨"get", some "x", [], [("Authorization", "caller"), ("Accept", "app")], "u"⟩
      [("Authorization", "token")] "Authorization" (by decide)).trans (by decide)
  · exact (send_auth_header_merge.2.2.2
      ⟨"get", some "x", [], [("Authorization", "caller"), ("Accept", "app")], "u"⟩
      (some [("Authorization", "token")]) "x" "Authorization" rfl).trans (by decide)

/-- Claim C9: the prepared request's HTTP verb is the upper-cased form of
the descriptor's method field, and that upper-cased verb is what the
network call actually receives (observed through an echoing transport). -/
theorem send_uppercases_method :
    (∀ (rd : RequestData) (ah : Option Headers),
      (prepared_request rd ah).method = pyUpper rd.method)
  ∧ (∀ (rd : RequestData) (ah : Option Headers) (p : String),
      rd.payload = some p →
      (send_request (fun pr => ⟨200, pr.method, []⟩) rd ah).1
        = Except.ok (pyUpper rd.method)) := by
  constructor
  · intro rd ah
    rfl
  · intro rd ah p hp
    simp [send_request, prepared_request, print_request, hp]

theorem send_uppercases_method_witness :
    (send_request (fun pr => ⟨200, pr.method, []⟩)
        ⟨"get", some "x", [], [], "u"⟩ none).1 = Except.ok "GET" :=
  (send_uppercases_method.2 ⟨"get", some "x", [], [], "u"⟩ none "x" rfl).trans (by decide)

/-! ## Claims about the transport executor's status gate and trace -/

/-- Claim C1 (amended): provided the descriptor's payload is present (so the
prepared body is bytes and the diagnostic trace does not fault),
`send_request` returns the raw response body text unchanged exactly when the
response status code is 200, and for every other status code it fails with
`PythXAPIError` whose message contains the numeric status code and the
decoded response body verbatim. -/
theorem send_status_gate_amended (transport : PreparedRequest → HTTPResponse)
    (rd : RequestData) (ah : Option Headers) (p : String) (hp : rd.payload = some p) :
    ((send_request transport rd ah).1
        = Except.ok (transport (prepared_request rd ah)).body
      ↔ (transport (prepared_request rd ah)).status_code = 200)
    ∧ ((transport (prepared_request rd ah)).status_code ≠ 200 →
        (send_request transport rd ah).1
          = Except.error (SendError.pythXAPIError
              ("Got unexpected status code "
                ++ Nat.repr (transport (prepared_request rd ah)).status_code ++ ": "
                ++ (transport (prepared_request rd ah)).body))
        ∧ (∃ a b : String,
            "Got unexpected status code "
                ++ Nat.repr (transport (prepared_request rd ah)).status_code ++ ": "
                ++ (transport (prepared_request rd ah)).body
              = a ++ Nat.repr (transport (prepared_request rd ah)).status_code ++ b)
        ∧ (∃ a b : String,
            "Got unexpected status code "
                ++ Nat.repr (transport (prepared_request rd ah)).status_code ++ ": "
                ++ (transport (prepared_request rd ah)).body
              = a ++ (transport (prepared_request rd ah)).body ++ b)) := by
  have hbody : (prepared_request rd ah).body = some (PyBody.bytes p) := by
    simp [prepared_request, hp]
  by_cases hsc : (transport (prepared_request rd ah)).status_code = 200
  · refine ⟨?_, fun h => absurd hsc h⟩
    simp [send_request, print_request, hbody, hsc]
  · refine ⟨?_, fun _ => ⟨?_, ?_, ?_⟩⟩
    · simp [send_request, print_request, hbody, hsc]
    · simp [send_request, print_request, hbody, hsc]
    · exact ⟨"Got unexpected status code ",
        ": " ++ (transport (prepared_request rd ah)).body,
        by rw [String.append_assoc]⟩
    · exact ⟨"Got unexpected status code "
          ++ Nat.repr (transport (prepared_request rd ah)).status_code ++ ": ", "",
        by rw [String.append_empty, String.append_assoc, String.append_assoc]⟩

theorem send_status_gate_amended_witness :
    ((send_request (fun _ => ⟨404, "bad uuid", []⟩)
          ⟨"GET", some "x", [], [], "https://api.mythx.io/v1/analyses/abc/issues"⟩ none).1
        = Except.ok "bad uuid"
      ↔ (404 : Nat) = 200)
    ∧ (send_request (fun _ => ⟨404, "bad uuid", []⟩)
          ⟨"GET", some "x", [], [], "https://api.mythx.io/v1/analyses/abc/issues"⟩ none).1
        = Except.error (SendError.pythXAPIError "Got unexpected status code 404: bad uuid")
    ∧ (send_request (fun _ => ⟨200, "all good", []⟩)
          ⟨"GET", some "x", [], [], "https://api.mythx.io/v1/analyses/abc/issues"⟩ none).1
        = Except.ok "all good" := by
  refine ⟨?_, ?_, ?_⟩
  · exact (send_status_gate_amended (fun _ => ⟨404, "bad uuid", []⟩)
      ⟨"GET", some "x", [], [], "https://api.mythx.io/v1/analyses/abc/issues"⟩ none "x" rfl).1
  · exact ((send_status_gate_amended (fun _ => ⟨404, "bad uuid", []⟩)
      ⟨"GET", some "x", [], [], "https://api.mythx.io/v1/analyses/abc/issues"⟩ none "x" rfl).2
      (by decide)).1.trans (by decide)
  · exact ((send_status_gate_amended (fun _ => ⟨200, "all good", []⟩)
      ⟨"GET", some "x", [], [], "https://api.mythx.io/v1/analyses/abc/issues"⟩ none "x" rfl).1.mpr rfl)

/-- Claim C1 (counterexample): for a descriptor whose payload is absent, the
trace helper faults before the status check, so `send_request` does not
return the body even though the response status code is exactly 200 — the
claim's equivalence fails as stated. -/
theorem send_status_gate_counterexample :
    ¬ (((send_request (fun _ => ⟨200, "hello", []⟩)
            ⟨"GET", none, [], [], "https://api.mythx.io/v1/version"⟩ none).1
          = Except.ok "hello")
        ↔ (200 : Nat) = 200) := by decide

/-- Claim C8: the diagnostic trace is not control-flow neutral — evaluating
`print_request` raises `AttributeError` for a prepared request whose body is
absent or is a text string (there is no `decode` on `None` or on `str`), and
inside `send_request` that fault replaces the normal result even for a 200
response. -/
theorem print_request_fault_on_absent_body :
    print_request ⟨"GET", "https://api.mythx.io/v1/version", [], none⟩
      = Except.error PyFault.attributeError
  ∧ print_request ⟨"POST", "https://api.mythx.io/v1/analyses", [], some (PyBody.str "data")⟩
      = Except.error PyFault.attributeError
  ∧ (send_request (fun _ => ⟨200, "all good", []⟩)
        ⟨"GET", none, [], [], "https://api.mythx.io/v1/version"⟩ none).1
      = Except.error (SendError.pyFault PyFault.attributeError) :=
  ⟨rfl, rfl, by decide⟩

/-- Claim C7 (amended): the pipeline reads the domain request's fields
without replacing them — assembly with an empty chain copies endpoint,
method, payload, parameters and headers into the descriptor verbatim — but
`send_request`'s auth-header merge updates the headers dictionary of the
descriptor in place (the very dictionary the caller's domain request holds):
after the call its contents are the `dictUpdate` of the original headers
with the auth header — in particular they are unchanged whenever the auth
header is absent or empty. -/
theorem send_mutates_caller_headers_amended :
    (∀ (transport : PreparedRequest → HTTPResponse) (rd : RequestData) (ah : Option Headers),
      (send_request transport rd ah).2 = dictUpdate rd.headers (ah.getD []))
  ∧ (∀ (transport : PreparedRequest → HTTPResponse) (rd : RequestData),
      (send_request transport rd none).2 = rd.headers
      ∧ (send_request transport rd (some [])).2 = rd.headers)
  ∧ (∀ (ε ρ : Type) (staging : Bool) (r : DomainRequest),
      assemble_request (@APIHandler.init ε ρ none staging) r
        = Except.ok ⟨r.method, r.payload, r.parameters, r.headers,
            urljoin (config_endpoints (if staging then "staging" else "production")) r.endpoint⟩) :=
  ⟨fun _ _ _ => rfl, fun _ _ => ⟨rfl, rfl⟩, fun _ _ _ _ => rfl⟩

theorem send_mutates_caller_headers_amended_witness :
    (send_request (fun _ => ⟨200, "ok", []⟩)
        ⟨"GET", some "x", [], [("Content-Type", "application/json")], "u"⟩
        (some [("Authorization", "Bearer token")])).2
      = dictUpdate [("Content-Type", "application/json")] [("Authorization", "Bearer token")]
  ∧ (send_request (fun _ => ⟨200, "ok", []⟩)
        ⟨"GET", some "x", [], [("Content-Type", "application/json")], "u"⟩ none).2
      = [("Content-Type", "application/json")] :=
  ⟨send_mutates_caller_headers_amended.1 (fun _ => ⟨200, "ok", []⟩)
      ⟨"GET", some "x", [], [("Content-Type", "application/json")], "u"⟩
      (some [("Authorization", "Bearer token")]),
    (send_mutates_caller_headers_amended.2.1 (fun _ => ⟨200, "ok", []⟩)
      ⟨"GET", some "x", [], [("Content-Type", "application/json")], "u"⟩).1⟩

/-- Claim C7 (counterexample): an auth header introducing a new key changes
the contents of the caller's headers dictionary — after `send_request` the
dictionary the domain request holds has gained the `Authorization` entry. -/
theorem send_mutates_caller_headers_counterexample :
    (send_request (fun _ => ⟨200, "ok", []⟩)
        ⟨"GET", some "x", [], [("Content-Type", "application/json")], "u"⟩
        (some [("Authorization", "Bearer token")])).2
      ≠ [("Content-Type", "application/json")] := by decide

/-! ## Claim about request assembly -/

/-- Claim C2: the url field of the descriptor assembled by a handler with no
registered middlewares is the `urljoin` of the active environment's base URL
and the domain request's endpoint; and on well-formed inputs that join obeys
the standard URL-resolution rules — an absolute endpoint path replaces the
base URL's path entirely, and a relative endpoint path is appended to a base
URL with empty path. -/
theorem assemble_url_urljoin :
    (∀ (ε ρ : Type) (staging : Bool) (r : DomainRequest),
      Except.map RequestData.url (assemble_request (@APIHandler.init ε ρ none staging) r)
        = Except.ok (urljoin (config_endpoints (if staging then "staging" else "production"))
            r.endpoint))
  ∧ (∀ s n p e : String, '/' ∉ s.data → '/' ∉ n.data →
      (p = "" ∨ p.data.head? = some '/') →
      e.data.head? = some '/' → (e.data.drop 1).head? ≠ some '/' →
      (∀ seg ∈ splitAll '/' e.data, seg ≠ ['.'] ∧ seg ≠ ['.', '.']) →
      urljoin (s ++ "://" ++ n ++ p) e = s ++ "://" ++ n ++ e)
  ∧ (∀ s n e : String, '/' ∉ s.data → '/' ∉ n.data →
      looksLikeScheme e.data = false → e ≠ "" →
      (∀ seg ∈ splitAll '/' e.data, seg ≠ [] ∧ seg ≠ ['.'] ∧ seg ≠ ['.', '.']) →
      urljoin (s ++ "://" ++ n) e = s ++ "://" ++ n ++ "/" ++ e) := by
  have hsep : ("://" : String).data = [':', '/', '/'] := rfl
  refine ⟨?_, ?_, ?_⟩
  · intro ε ρ staging r
    rfl
  · intro s n p e hs hn hp he he2 hdot
    have hp' : p.data = [] ∨ p.data.head? = some '/' := by
      rcases hp with rfl | h
      · exact Or.inl rfl
      · exact Or.inr h
    have hdata : (s ++ "://" ++ n ++ p).data
        = s.data ++ ':' :: '/' :: '/' :: (n.data ++ p.data) := by
      simp [String.data_append, hsep]
    apply String.ext
    show urljoinCore (s ++ "://" ++ n ++ p).data e.data = (s ++ "://" ++ n ++ e).data
    rw [hdata, urljoinCore_absolute s.data n.data p.data e.data hs hn hp' he he2 hdot]
    simp [String.data_append, hsep]
  · intro s n e hs hn hls hne hsegs
    have hne' : e.data ≠ [] := by
      intro h
      exact hne (String.ext h)
    have hdata : (s ++ "://" ++ n).data = s.data ++ ':' :: '/' :: '/' :: n.data := by
      simp [String.data_append, hsep]
    apply String.ext
    show urljoinCore (s ++ "://" ++ n).data e.data = (s ++ "://" ++ n ++ "/" ++ e).data
    rw [hdata, urljoinCore_relative s.data n.data e.data hs hn hls hne' hsegs]
    simp [String.data_append, hsep]

theorem assemble_url_urljoin_witness :
    Except.map RequestData.url
        (assemble_request (@APIHandler.init String String none false)
          ⟨"/v1/auth/login", "POST", some "x", [], []⟩)
      = Except.ok (urljoin (config_endpoints "production") "/v1/auth/login")
  ∧ urljoin ("https" ++ "://" ++ "api.example.io" ++ "/old/path") "/v1/auth/login"
      = "https" ++ "://" ++ "api.example.io" ++ "/v1/auth/login"
  ∧ urljoin ("https" ++ "://" ++ "staging.api.mythx.io") "trial"
      = "https" ++ "://" ++ "staging.api.mythx.io" ++ "/" ++ "trial" := by
  refine ⟨?_, ?_, ?_⟩
  · exact assemble_url_urljoin.1 String String false ⟨"/v1/auth/login", "POST", some "x", [], []⟩
  · exact assemble_url_urljoin.2.1 "https" "api.example.io" "/old/path" "/v1/auth/login"
      (by decide) (by decide) (Or.inr (by decide)) (by decide) (by decide) (by decide)
  · exact assemble_url_urljoin.2.2 "https" "staging.api.mythx.io" "trial"
      (by decide) (by decide) (by decide) (by decide) (by decide)
